import Mathlib

/-!
Shallow embedding of the finance-tracking application's core slice
(`server/storage.ts`, `server/routes.ts`, `shared/schema.ts`):
the entity store, balance maintenance on transaction approval, the
role-based authorization gate, and dashboard aggregation.

Monetary amounts (SQL `decimal(12,2)` read through `Number(...)`) are
modelled as integers; transaction dates (`timestamp`) at day resolution
as (year, month, day) triples, matching the month-window arithmetic of
`getDashboardStats` and `getTransactions`.
-/

namespace FinanceAcc

/-- `userRoleEnum` from `shared/schema.ts`. -/
inductive Role where
  | admin
  | hr
  | manager
  | data_entry
deriving DecidableEq, Repr

/-- `transactionTypeEnum` from `shared/schema.ts`. -/
inductive TxType where
  | income
  | expense
  | transfer
  | opening_balance
deriving DecidableEq, Repr

/-- `transactionStatusEnum` from `shared/schema.ts`. -/
inductive TxStatus where
  | draft
  | submitted
  | approved
  | rejected
deriving DecidableEq, Repr

/-- `accountTypeEnum` from `shared/schema.ts`. -/
inductive AccountType where
  | current
  | od_cc
  | cash
  | upi
deriving DecidableEq, Repr

/-- Calendar date at day resolution (the `date: timestamp` column of
`transactions`, as used by the month-window filters). -/
structure TxDate where
  year : Int
  month : Nat
  day : Nat
deriving DecidableEq, Repr

/-- Gregorian leap-year rule (JavaScript `Date` month-end arithmetic). -/
def isLeapYear (y : Int) : Bool :=
  (y % 4 == 0 && y % 100 != 0) || (y % 400 == 0)

/-- Number of days in a month, as produced by `new Date(y, m + 1, 0)`. -/
def daysInMonth (y : Int) (m : Nat) : Nat :=
  if m = 2 then (if isLeapYear y then 29 else 28)
  else if m = 4 ∨ m = 6 ∨ m = 9 ∨ m = 11 then 30
  else 31

/-- Chronological order on day-resolution dates (the `gte`/`lte`
comparisons of the drizzle queries). -/
def dateLe (d1 d2 : TxDate) : Bool :=
  decide (d1.year < d2.year ∨
    (d1.year = d2.year ∧
      (d1.month < d2.month ∨ (d1.month = d2.month ∧ d1.day ≤ d2.day))))

/-- The `accounts` table row (`shared/schema.ts`). -/
structure Account where
  id : Nat
  name : String
  type : AccountType
  openingBalance : Int
  currentBalance : Int
  isActive : Bool
deriving DecidableEq, Repr

/-- The `categories` table row (`shared/schema.ts`). -/
structure Category where
  id : Nat
  name : String
  isEnabled : Bool
  isSystem : Bool
deriving DecidableEq, Repr

/-- The `transactions` table row (`shared/schema.ts`), restricted to the
fields the core slice reads. -/
structure Transaction where
  id : Nat
  date : TxDate
  amountInInr : Int
  type : TxType
  categoryId : Option Nat
  accountId : Nat
  toAccountId : Option Nat
  status : TxStatus
  createdBy : String
  approvedBy : Option String
deriving DecidableEq, Repr

/-- The `app_users` table row (`shared/schema.ts`). -/
structure AppUser where
  id : Nat
  role : Role
  isActive : Bool
deriving DecidableEq, Repr

/-- The relational store visible to the core slice. -/
structure DBState where
  accounts : List Account
  categories : List Category
  transactions : List Transaction
deriving DecidableEq, Repr

/-- One SQL `UPDATE accounts SET ... WHERE id = aid` statement: applies
`f` to every row whose `id` matches (no other condition — in particular
no `is_active` filter). -/
def applyBalanceUpdate (accs : List Account) (aid : Nat) (f : Account → Account) :
    List Account :=
  accs.map (fun a => if a.id = aid then f a else a)

/-- `DatabaseStorage.updateAccountBalances` (`server/storage.ts` 210–223):
the else-if chain over the transaction type; the `transfer` branch fires
only when `toAccountId` is set, otherwise the chain falls through with no
update. -/
def updateAccountBalances (tx : Transaction) (accs : List Account) : List Account :=
  let amount := tx.amountInInr
  match tx.type with
  | .income =>
      applyBalanceUpdate accs tx.accountId
        (fun a => { a with currentBalance := a.currentBalance + amount })
  | .expense =>
      applyBalanceUpdate accs tx.accountId
        (fun a => { a with currentBalance := a.currentBalance - amount })
  | .transfer =>
      match tx.toAccountId with
      | some dest =>
          let accs1 := applyBalanceUpdate accs tx.accountId
            (fun a => { a with currentBalance := a.currentBalance - amount })
          applyBalanceUpdate accs1 dest
            (fun a => { a with currentBalance := a.currentBalance + amount })
      | none => accs
  | .opening_balance =>
      applyBalanceUpdate accs tx.accountId
        (fun a => { a with
            openingBalance := a.openingBalance + amount,
            currentBalance := a.currentBalance + amount })

/-- `DatabaseStorage.createTransaction` (`server/storage.ts` 176–185):
insert the row, then run balance maintenance iff the row is approved. -/
def createTransaction (st : DBState) (tx : Transaction) : DBState :=
  let st1 := { st with transactions := st.transactions ++ [tx] }
  if tx.status = .approved then
    { st1 with accounts := updateAccountBalances tx st1.accounts }
  else st1

/-- A `Partial<InsertTransaction>` update object, restricted to the
fields the core slice mutates. -/
structure TxUpdate where
  date : Option TxDate := none
  amountInInr : Option Int := none
  type : Option TxType := none
  categoryId : Option (Option Nat) := none
  accountId : Option Nat := none
  toAccountId : Option (Option Nat) := none
  status : Option TxStatus := none
  approvedBy : Option (Option String) := none
deriving Repr

/-- Drizzle `update(transactions).set(updates)`: fields present in the
update object overwrite the row. -/
def applyTxUpdate (u : TxUpdate) (t : Transaction) : Transaction :=
  { t with
    date := u.date.getD t.date
    amountInInr := u.amountInInr.getD t.amountInInr
    type := u.type.getD t.type
    categoryId := u.categoryId.getD t.categoryId
    accountId := u.accountId.getD t.accountId
    toAccountId := u.toAccountId.getD t.toAccountId
    status := u.status.getD t.status
    approvedBy := u.approvedBy.getD t.approvedBy }

/-- `DatabaseStorage.updateTransaction` (`server/storage.ts` 187–204):
read the old row, write the update, and run balance maintenance iff the
status changed from non-approved to approved. -/
def updateTransaction (st : DBState) (id : Nat) (u : TxUpdate) : DBState :=
  match st.transactions.find? (fun t => t.id == id) with
  | none => st
  | some old =>
      let updated := applyTxUpdate u old
      let st1 := { st with
        transactions := st.transactions.map
          (fun t => if t.id = id then applyTxUpdate u t else t) }
      if old.status ≠ .approved ∧ updated.status = .approved then
        { st1 with accounts := updateAccountBalances updated st1.accounts }
      else st1

/-- `DatabaseStorage.deleteCategory` (`server/storage.ts` 111–119): a
hard `DELETE FROM categories WHERE id = ...`, with no `isSystem` check. -/
def deleteCategory (st : DBState) (id : Nat) : DBState :=
  { st with categories := st.categories.filter (fun c => c.id != id) }

/-- `DatabaseStorage.createCategory` (`server/storage.ts` 101–104). -/
def createCategory (st : DBState) (c : Category) : DBState :=
  { st with categories := st.categories ++ [c] }

/-- A `Partial<InsertCategory>` update object. -/
structure CategoryUpdate where
  name : Option String := none
  isEnabled : Option Bool := none
  isSystem : Option Bool := none
deriving Repr

/-- Drizzle `update(categories).set(...)`. -/
def applyCategoryUpdate (u : CategoryUpdate) (c : Category) : Category :=
  { c with
    name := u.name.getD c.name
    isEnabled := u.isEnabled.getD c.isEnabled
    isSystem := u.isSystem.getD c.isSystem }

/-- `DatabaseStorage.updateCategory` (`server/storage.ts` 106–109). -/
def updateCategory (st : DBState) (id : Nat) (u : CategoryUpdate) : DBState :=
  { st with
    categories := st.categories.map
      (fun c => if c.id = id then applyCategoryUpdate u c else c) }

/-- `canCreateTransactions` (`server/routes.ts` 45–48). -/
def canCreateTransactions (role : Role) : Bool :=
  role = .admin || role = .hr || role = .data_entry

/-- `canApproveTransactions` (`server/routes.ts` 50–53). -/
def canApproveTransactions (role : Role) : Bool :=
  role = .admin

/-- An HTTP response status code paired with the store after the request. -/
abbrev HandlerResult := Nat × DBState

/-- Request body of `POST /api/transactions` as read by the handler
(`server/routes.ts` 335–371); `status` is absent when the client sent
none (the handler's `req.body.status || 'draft'`). -/
structure CreateTxBody where
  date : TxDate
  amountInInr : Int
  type : TxType
  categoryId : Option Nat := none
  accountId : Nat
  toAccountId : Option Nat := none
  status : Option TxStatus := none
deriving Repr

/-- The `POST /api/transactions` handler (`server/routes.ts` 335–371):
reject when the role may not create transactions; force `draft` status
for `data_entry` users; persist via `createTransaction`. `user` is the
result of `getCurrentUser` (`none` when the session has no app user). -/
def createTransactionHandler (user : Option AppUser) (body : CreateTxBody)
    (newId : Nat) (st : DBState) : HandlerResult :=
  match user with
  | none => (403, st)
  | some u =>
      if !canCreateTransactions u.role then (403, st)
      else
        let status0 := body.status.getD .draft
        let status := if u.role = .data_entry ∧ status0 ≠ .draft then .draft else status0
        let tx : Transaction := {
          id := newId
          date := body.date
          amountInInr := body.amountInInr
          type := body.type
          categoryId := body.categoryId
          accountId := body.accountId
          toAccountId := body.toAccountId
          status := status
          createdBy := toString u.id
          approvedBy := none }
        (201, createTransaction st tx)

/-- Modelled from the spec: `DatabaseStorage.approveTransaction` is
called by the approve route (`server/routes.ts` 380) but its body is not
among the available storage sources. Per §4.2/§4.3 of the spec, approval
sets the row's status to `approved`, stamps the approver identity, and
triggers balance maintenance; per §9 nothing guards against re-invoking
it on an already-approved row. -/
def approveTransaction (st : DBState) (id : Nat) (approver : String) : DBState :=
  match st.transactions.find? (fun t => t.id == id) with
  | none => st
  | some old =>
      let updated := { old with status := TxStatus.approved, approvedBy := some approver }
      { st with
        transactions := st.transactions.map
          (fun t => if t.id = id then
            { t with status := TxStatus.approved, approvedBy := some approver }
           else t)
        accounts := updateAccountBalances updated st.accounts }

/-- The `POST /api/transactions/:id/approve` handler
(`server/routes.ts` 373–382): reject with 403 unless the current user's
role passes `canApproveTransactions`, before touching storage. -/
def approveTransactionHandler (user : Option AppUser) (id : Nat)
    (st : DBState) : HandlerResult :=
  match user with
  | none => (403, st)
  | some u =>
      if !canApproveTransactions u.role then (403, st)
      else (200, approveTransaction st id (toString u.id))

/-- The `POST /api/categories` handler (`server/routes.ts` 255–266),
behind the `isAdmin` middleware: 401 without a session user, 403 for a
non-admin role. -/
def createCategoryHandler (user : Option AppUser) (c : Category)
    (st : DBState) : HandlerResult :=
  match user with
  | none => (401, st)
  | some u =>
      if u.role ≠ .admin then (403, st)
      else (201, createCategory st c)

/-- The `PUT /api/categories/:id` handler (`server/routes.ts` 268–273),
behind only the `isAuthenticated` middleware. -/
def updateCategoryHandler (user : Option AppUser) (id : Nat)
    (u : CategoryUpdate) (st : DBState) : HandlerResult :=
  match user with
  | none => (401, st)
  | some _ => (200, updateCategory st id u)

/-- The `DELETE /api/categories/:id` handler (`server/routes.ts`
275–278), behind only the `isAuthenticated` middleware. -/
def deleteCategoryHandler (user : Option AppUser) (id : Nat)
    (st : DBState) : HandlerResult :=
  match user with
  | none => (401, st)
  | some _ => (204, deleteCategory st id)

/-- One `topExpenses` entry (`{ category, amount }`). -/
structure ExpenseEntry where
  category : String
  amount : Int
deriving DecidableEq, Repr

/-- The dashboard payload of `getDashboardStats`
(`revenueByService` is the constant `[]` in the source and omitted). -/
structure DashboardStats where
  currentMonthProfitLoss : Int
  totalAvailableFunds : Int
  odLimitUsed : Int
  odLimitRemaining : Int
  topExpenses : List ExpenseEntry
deriving DecidableEq, Repr

/-- `category?.name || 'Unknown'` after `getCategory(tx.categoryId)`:
a missing category, or an empty name, yields `"Unknown"`. -/
def categoryName (st : DBState) (cid : Nat) : String :=
  match st.categories.find? (fun c => c.id == cid) with
  | some c => if c.name = "" then "Unknown" else c.name
  | none => "Unknown"

/-- `expensesByCategory.set(name, (get(name) || 0) + amount)`: JavaScript
`Map` keeps first-insertion order and accumulates in place. -/
def upsertExpense (m : List (String × Int)) (k : String) (v : Int) :
    List (String × Int) :=
  match m with
  | [] => [(k, v)]
  | (k', v') :: rest =>
      if k' = k then (k', v' + v) :: rest else (k', v') :: upsertExpense rest k v

/-- Stable insertion of an entry into a list sorted by amount descending
(`Array.prototype.sort` with comparator `(a, b) => b.amount - a.amount`
is a stable descending sort). -/
def insertEntryDesc (x : ExpenseEntry) : List ExpenseEntry → List ExpenseEntry
  | [] => [x]
  | y :: ys => if y.amount ≤ x.amount then x :: y :: ys else y :: insertEntryDesc x ys

/-- Stable descending sort by amount. -/
def sortEntriesDesc : List ExpenseEntry → List ExpenseEntry
  | [] => []
  | x :: xs => insertEntryDesc x (sortEntriesDesc xs)

/-- `DatabaseStorage.getDashboardStats` (`server/storage.ts` 287–339)
for a requested month `(y, m)`: total funds over the full account list,
overdraft figures from the first `od_cc` account, approved transactions
of the month window, profit/loss, and top-5 expense categories. -/
def getDashboardStats (st : DBState) (y : Int) (m : Nat) : DashboardStats :=
  let accountsList := st.accounts
  let totalAvailableFunds := (accountsList.map (fun a => a.currentBalance)).sum
  let odAccount := accountsList.find? (fun a => a.type == AccountType.od_cc)
  let odLimitUsed : Int :=
    match odAccount with
    | some a => |min 0 a.currentBalance|
    | none => 0
  let odLimitRemaining := 500000 - odLimitUsed
  let startOfMonth : TxDate := ⟨y, m, 1⟩
  let endOfMonth : TxDate := ⟨y, m, daysInMonth y m⟩
  let monthlyTx := st.transactions.filter (fun t =>
    dateLe startOfMonth t.date && dateLe t.date endOfMonth &&
      t.status == TxStatus.approved)
  let income := ((monthlyTx.filter (fun t => t.type == TxType.income)).map
    (fun t => t.amountInInr)).sum
  let expense := ((monthlyTx.filter (fun t => t.type == TxType.expense)).map
    (fun t => t.amountInInr)).sum
  let currentMonthProfitLoss := income - expense
  let expensesByCategory := monthlyTx.foldl (fun acc t =>
    match t.categoryId with
    | some cid =>
        if t.type == TxType.expense then
          upsertExpense acc (categoryName st cid) t.amountInInr
        else acc
    | none => acc) []
  let topExpenses :=
    (sortEntriesDesc (expensesByCategory.map (fun p => ⟨p.1, p.2⟩))).take 5
  { currentMonthProfitLoss := currentMonthProfitLoss
    totalAvailableFunds := totalAvailableFunds
    odLimitUsed := odLimitUsed
    odLimitRemaining := odLimitRemaining
    topExpenses := topExpenses }

/-! ## Theorems -/

/-- C10: if a `transfer` transaction whose destination account reference
is null transitions into `approved`, the balance-maintenance step
changes no account balance at all — in particular the source account is
not debited. -/
theorem transfer_missing_dest_no_change (tx : Transaction) (accs : List Account)
    (hty : tx.type = .transfer) (hdest : tx.toAccountId = none) :
    updateAccountBalances tx accs = accs := by
  simp [updateAccountBalances, hty, hdest]

/-- Witness for C10 at a concrete transfer with no destination. -/
theorem transfer_missing_dest_no_change_witness :
    updateAccountBalances
      ⟨3, ⟨2026, 1, 16⟩, 300, .transfer, none, 1, none, .approved, "1", none⟩
      [⟨1, "A", .current, 1000, 1000, true⟩] =
      [⟨1, "A", .current, 1000, 1000, true⟩] :=
  transfer_missing_dest_no_change _ _ rfl rfl

/-- C3: an approve-transaction request by an authenticated user whose
role is not `admin` gets HTTP 403 and the store — every transaction's
status and every account's balances — is unchanged. -/
theorem approve_non_admin_rejected (u : AppUser) (id : Nat) (st : DBState)
    (h : u.role ≠ .admin) :
    approveTransactionHandler (some u) id st = (403, st) := by
  simp [approveTransactionHandler, canApproveTransactions, h]

/-- Witness for C3: a `manager` tries to approve transaction 1. -/
theorem approve_non_admin_rejected_witness :
    approveTransactionHandler (some ⟨4, .manager, true⟩) 1
      ⟨[⟨1, "A", .current, 1000, 1000, true⟩], [],
       [⟨1, ⟨2026, 1, 15⟩, 200, .expense, none, 1, none, .submitted, "1", none⟩]⟩ =
      (403,
      ⟨[⟨1, "A", .current, 1000, 1000, true⟩], [],
       [⟨1, ⟨2026, 1, 15⟩, 200, .expense, none, 1, none, .submitted, "1", none⟩]⟩) :=
  approve_non_admin_rejected _ _ _ (by decide)

/-- C2: a create-transaction request by a `data_entry` user persists a
transaction whose status is `draft`, regardless of the status value in
the request body, and nothing else changes in the transaction list. -/
theorem data_entry_create_forces_draft (u : AppUser) (body : CreateTxBody)
    (newId : Nat) (st : DBState) (h : u.role = .data_entry) :
    ∃ tx : Transaction, tx.status = .draft ∧
      ((createTransactionHandler (some u) body newId st).2).transactions =
        st.transactions ++ [tx] := by
  by_cases hs : body.status.getD .draft = TxStatus.draft <;>
    simp [createTransactionHandler, canCreateTransactions, h, hs,
      createTransaction]

/-- Witness for C2: a `data_entry` user submits status `approved`; the
persisted row is a draft. -/
theorem data_entry_create_forces_draft_witness :
    ∃ tx : Transaction, tx.status = .draft ∧
      ((createTransactionHandler (some ⟨5, .data_entry, true⟩)
          { date := ⟨2026, 1, 2⟩, amountInInr := 10, type := .income,
            accountId := 1, status := some .approved } 9
          ⟨[], [], []⟩).2).transactions = [] ++ [tx] :=
  data_entry_create_forces_draft _ _ _ _ rfl

/-- C4 counterexample: transaction 1 is already `approved` (income of 50
into account 1, balance 100); invoking the status-update operation with
status `approved` again leaves the balance at 100 — the delta is NOT
applied a second time, contradicting the claim that it changes again by
the transaction's amount. -/
theorem reapprove_double_apply_counterexample :
    ((updateTransaction
        ⟨[⟨1, "A", .current, 100, 100, true⟩], [],
         [⟨1, ⟨2026, 1, 10⟩, 50, .income, none, 1, none, .approved, "1", none⟩]⟩
        1 { status := some .approved }).accounts.map
          (fun a => a.currentBalance)) = [100] ∧
    ¬ ((updateTransaction
        ⟨[⟨1, "A", .current, 100, 100, true⟩], [],
         [⟨1, ⟨2026, 1, 10⟩, 50, .income, none, 1, none, .approved, "1", none⟩]⟩
        1 { status := some .approved }).accounts.map
          (fun a => a.currentBalance)) = [150] := by
  constructor <;> decide

/-- C4 amended: `updateTransaction` applies the balance delta exactly on
a transition from non-`approved` to `approved`: if the stored row is
already `approved`, re-invoking the operation (with any update, in
particular status `approved`) leaves every account unchanged; if the
stored row is not `approved` and the update makes it `approved`, the
delta is applied once. -/
theorem reapprove_no_double_apply (st : DBState) (id : Nat) (u : TxUpdate)
    (old : Transaction)
    (hfind : st.transactions.find? (fun t => t.id == id) = some old) :
    (old.status = .approved →
      (updateTransaction st id u).accounts = st.accounts) ∧
    (old.status ≠ .approved → (applyTxUpdate u old).status = .approved →
      (updateTransaction st id u).accounts =
        updateAccountBalances (applyTxUpdate u old) st.accounts) := by
  constructor
  · intro hap
    simp [updateTransaction, hfind, hap]
  · intro hnap hap
    simp [updateTransaction, hfind, hnap, hap]

/-- Witness for C4's amended claim, at the counterexample state and at a
`submitted` row that gets approved. -/
theorem reapprove_no_double_apply_witness :
    (updateTransaction
        ⟨[⟨1, "A", .current, 100, 100, true⟩], [],
         [⟨1, ⟨2026, 1, 10⟩, 50, .income, none, 1, none, .approved, "1", none⟩]⟩
        1 { status := some .approved }).accounts =
      [⟨1, "A", .current, 100, 100, true⟩] :=
  (reapprove_no_double_apply
    ⟨[⟨1, "A", .current, 100, 100, true⟩], [],
     [⟨1, ⟨2026, 1, 10⟩, 50, .income, none, 1, none, .approved, "1", none⟩]⟩
    1 { status := some .approved }
    ⟨1, ⟨2026, 1, 10⟩, 50, .income, none, 1, none, .approved, "1", none⟩
    (by decide)).1 rfl

/-- C5 counterexample: account 1 is inactive with balance 100; creating
an approved income of 50 against it still increments the balance to 150
— the increment is NOT skipped for an inactive account, contradicting
the claim. -/
theorem inactive_account_not_skipped_counterexample :
    ((createTransaction
        ⟨[⟨1, "A", .current, 100, 100, false⟩], [], []⟩
        ⟨1, ⟨2026, 1, 10⟩, 50, .income, none, 1, none, .approved, "1", none⟩).accounts.map
          (fun a => a.currentBalance)) = [150] ∧
    ¬ ((createTransaction
        ⟨[⟨1, "A", .current, 100, 100, false⟩], [], []⟩
        ⟨1, ⟨2026, 1, 10⟩, 50, .income, none, 1, none, .approved, "1", none⟩).accounts.map
          (fun a => a.currentBalance)) = [100] := by
  constructor <;> decide

/-- C5 amended: if no account matches the transaction's account
references, balance maintenance is a silent no-op (it never fails), and
the transaction row is always persisted regardless of the balance-update
outcome; an inactive account, however, is updated exactly like an active
one (shown by the counterexample). -/
theorem balance_update_missing_account_skipped :
    (∀ (tx : Transaction) (accs : List Account),
      (∀ a ∈ accs, a.id ≠ tx.accountId ∧
        ∀ d, tx.toAccountId = some d → a.id ≠ d) →
      updateAccountBalances tx accs = accs) ∧
    (∀ (st : DBState) (tx : Transaction),
      (createTransaction st tx).transactions = st.transactions ++ [tx]) := by
  constructor
  · intro tx accs hmiss
    have hself : ∀ (f : Account → Account),
        applyBalanceUpdate accs tx.accountId f = accs := by
      intro f
      unfold applyBalanceUpdate
      rw [List.map_congr_left, List.map_id]
      intro a ha
      simp [(hmiss a ha).1]
    cases hty : tx.type with
    | income => simp [updateAccountBalances, hty, hself]
    | expense => simp [updateAccountBalances, hty, hself]
    | opening_balance => simp [updateAccountBalances, hty, hself]
    | transfer =>
      cases hdest : tx.toAccountId with
      | none => simp [updateAccountBalances, hty, hdest]
      | some d =>
        have hdself : ∀ (f : Account → Account),
            applyBalanceUpdate accs d f = accs := by
          intro f
          unfold applyBalanceUpdate
          rw [List.map_congr_left, List.map_id]
          intro a ha
          simp [(hmiss a ha).2 d hdest]
        simp [updateAccountBalances, hty, hdest, hself, hdself]
  · intro st tx
    unfold createTransaction
    split <;> rfl

/-- Witness for C5's amended claim: no account has id 99, so the update
is a no-op, and the row is persisted. -/
theorem balance_update_missing_account_skipped_witness :
    updateAccountBalances
      ⟨1, ⟨2026, 1, 10⟩, 50, .income, none, 99, none, .approved, "1", none⟩
      [⟨1, "A", .current, 100, 100, true⟩] =
      [⟨1, "A", .current, 100, 100, true⟩] ∧
    (createTransaction ⟨[], [], []⟩
      ⟨1, ⟨2026, 1, 10⟩, 50, .income, none, 99, none, .draft, "1", none⟩).transactions =
      [] ++ [⟨1, ⟨2026, 1, 10⟩, 50, .income, none, 99, none, .draft, "1", none⟩] :=
  ⟨balance_update_missing_account_skipped.1 _ _ (by decide),
   balance_update_missing_account_skipped.2 _ _⟩

/-- C7 counterexample: one inactive account with balance 100 and one
active account with balance 10; `totalAvailableFunds` is 110, not the
active-only sum 10 — inactive accounts DO contribute, contradicting the
claim. -/
theorem total_funds_includes_inactive_counterexample :
    (getDashboardStats
      ⟨[⟨1, "I", .current, 0, 100, false⟩, ⟨2, "A", .cash, 0, 10, true⟩],
       [], []⟩ 2026 1).totalAvailableFunds = 110 ∧
    ¬ (getDashboardStats
      ⟨[⟨1, "I", .current, 0, 100, false⟩, ⟨2, "A", .cash, 0, 10, true⟩],
       [], []⟩ 2026 1).totalAvailableFunds = 10 := by
  constructor <;> decide

/-- C7 amended: `totalAvailableFunds` equals the sum of the current
balances of ALL accounts (active and inactive alike), and is independent
of the requested month. -/
theorem total_funds_all_accounts (st : DBState) (y : Int) (m : Nat) :
    (getDashboardStats st y m).totalAvailableFunds =
      (st.accounts.map (fun a => a.currentBalance)).sum ∧
    ∀ (y2 : Int) (m2 : Nat),
      (getDashboardStats st y m).totalAvailableFunds =
        (getDashboardStats st y2 m2).totalAvailableFunds := by
  exact ⟨rfl, fun _ _ => rfl⟩

/-- C9: the code at the claimed failing input — an authenticated `hr`
user deletes system category 3 via `DELETE /api/categories/:id` — gets
HTTP 204 and the category row is hard-deleted, where the claim (and the
route file's own "Admin only for create/update/delete" comment) requires
a 403 with no change. -/
theorem non_admin_delete_category_succeeds :
    deleteCategoryHandler (some ⟨2, .hr, true⟩) 3
        ⟨[], [⟨3, "Sales Revenue", true, true⟩], []⟩ =
      (204, ⟨[], [], []⟩) ∧
    ¬ (deleteCategoryHandler (some ⟨2, .hr, true⟩) 3
        ⟨[], [⟨3, "Sales Revenue", true, true⟩], []⟩).1 = 403 := by
  constructor <;> decide

/-- Descending order on expense entries (later entry no larger). -/
def entryGe (a b : ExpenseEntry) : Prop := b.amount ≤ a.amount

lemma mem_insertEntryDesc {x z : ExpenseEntry} {l : List ExpenseEntry}
    (h : z ∈ insertEntryDesc x l) : z = x ∨ z ∈ l := by
  induction l with
  | nil => simpa [insertEntryDesc] using h
  | cons y ys ih =>
    by_cases hc : y.amount ≤ x.amount
    · simpa [insertEntryDesc, hc, or_assoc] using h
    · simp only [insertEntryDesc, if_neg hc, List.mem_cons] at h
      rcases h with h | h
      · exact Or.inr (h ▸ List.mem_cons_self y ys)
      · rcases ih h with h2 | h2
        · exact Or.inl h2
        · exact Or.inr (List.mem_cons_of_mem y h2)

lemma pairwise_insertEntryDesc (x : ExpenseEntry) {l : List ExpenseEntry}
    (h : l.Pairwise entryGe) : (insertEntryDesc x l).Pairwise entryGe := by
  induction l with
  | nil => simp [insertEntryDesc, entryGe]
  | cons y ys ih =>
    rcases List.pairwise_cons.mp h with ⟨hy, hys⟩
    by_cases hc : y.amount ≤ x.amount
    · simp only [insertEntryDesc, if_pos hc]
      refine List.pairwise_cons.mpr ⟨?_, h⟩
      intro z hz
      rcases List.mem_cons.mp hz with hz | hz
      · exact hz ▸ hc
      · exact le_trans (hy z hz) hc
    · simp only [insertEntryDesc, if_neg hc]
      refine List.pairwise_cons.mpr ⟨?_, ih hys⟩
      intro z hz
      rcases mem_insertEntryDesc hz with hz | hz
      · exact hz ▸ le_of_not_le hc
      · exact hy z hz

lemma pairwise_sortEntriesDesc (l : List ExpenseEntry) :
    (sortEntriesDesc l).Pairwise entryGe := by
  induction l with
  | nil => simp [sortEntriesDesc]
  | cons x xs ih => exact pairwise_insertEntryDesc x ih

/-- C8 amended: `topExpenses` has at most 5 entries, ordered by summed
amount descending; a zero summed amount CAN appear (a category
referenced only by zero-amount approved expenses is listed — see the
counterexample), so strict positivity does not hold. -/
theorem top_expenses_len_sorted (st : DBState) (y : Int) (m : Nat) :
    (getDashboardStats st y m).topExpenses.length ≤ 5 ∧
    (getDashboardStats st y m).topExpenses.Pairwise entryGe := by
  constructor
  · simp only [getDashboardStats, List.length_take]
    exact min_le_left _ _
  · exact List.Pairwise.sublist (List.take_sublist _ _)
      (pairwise_sortEntriesDesc _)

/-- C8 counterexample: the only approved expense of the month has
base-currency amount 0 with category "Travel"; `topExpenses` contains
the entry ⟨"Travel", 0⟩, so an entry with zero summed expense appears,
contradicting the claim. -/
theorem top_expenses_zero_entry_counterexample :
    (getDashboardStats
      ⟨[], [⟨7, "Travel", true, false⟩],
       [⟨1, ⟨2026, 1, 15⟩, 0, .expense, some 7, 1, none, .approved, "1", none⟩]⟩
      2026 1).topExpenses = [⟨"Travel", 0⟩] ∧
    ¬ (∀ e ∈ (getDashboardStats
      ⟨[], [⟨7, "Travel", true, false⟩],
       [⟨1, ⟨2026, 1, 15⟩, 0, .expense, some 7, 1, none, .approved, "1", none⟩]⟩
      2026 1).topExpenses, 0 < e.amount) := by
  constructor <;> decide

/-- The claim's reading of the monthly aggregate: the sum of
base-currency amounts of approved transactions of type `ty` dated in
month `(y, m)`. -/
def specMonthlySum (st : DBState) (y : Int) (m : Nat) (ty : TxType) : Int :=
  ((st.transactions.filter (fun t =>
      t.status == TxStatus.approved && t.type == ty &&
        t.date.year == y && t.date.month == m)).map
    (fun t => t.amountInInr)).sum

lemma month_window_eq (y : Int) (m : Nat) (d : TxDate) (h1 : 1 ≤ d.day)
    (h2 : d.day ≤ daysInMonth d.year d.month) :
    (dateLe ⟨y, m, 1⟩ d && dateLe d ⟨y, m, daysInMonth y m⟩) =
      (d.year == y && d.month == m) := by
  rw [Bool.eq_iff_iff]
  simp only [Bool.and_eq_true, dateLe, decide_eq_true_eq, beq_iff_eq]
  constructor
  · rintro ⟨hA, hB⟩
    omega
  · rintro ⟨hy, hm⟩
    subst hy
    subst hm
    omega

lemma monthly_filter_eq (st : DBState) (y : Int) (m : Nat)
    (hvalid : ∀ t ∈ st.transactions, 1 ≤ t.date.day ∧
      t.date.day ≤ daysInMonth t.date.year t.date.month) (ty : TxType) :
    (st.transactions.filter (fun t =>
        dateLe ⟨y, m, 1⟩ t.date && dateLe t.date ⟨y, m, daysInMonth y m⟩ &&
          t.status == TxStatus.approved)).filter (fun t => t.type == ty) =
      st.transactions.filter (fun t =>
        t.status == TxStatus.approved && t.type == ty &&
          t.date.year == y && t.date.month == m) := by
  rw [List.filter_filter]
  apply List.filter_congr
  intro t ht
  obtain ⟨h1, h2⟩ := hvalid t ht
  rw [month_window_eq y m t.date h1 h2]
  rw [Bool.eq_iff_iff]
  simp only [Bool.and_eq_true]
  tauto

/-- C6: the dashboard's `currentMonthProfitLoss` for a requested month
equals (sum of approved income dated in that month) minus (sum of
approved expense dated in that month), and transactions in status
`draft`, `submitted` or `rejected` have no effect on it. Transaction
dates are assumed day-valid for their month. -/
theorem dashboard_profit_loss_correct (st : DBState) (y : Int) (m : Nat)
    (hvalid : ∀ t ∈ st.transactions, 1 ≤ t.date.day ∧
      t.date.day ≤ daysInMonth t.date.year t.date.month) :
    (getDashboardStats st y m).currentMonthProfitLoss =
      specMonthlySum st y m .income - specMonthlySum st y m .expense ∧
    ∀ tx2 : Transaction, tx2.status ≠ .approved →
      (getDashboardStats { st with transactions := tx2 :: st.transactions }
          y m).currentMonthProfitLoss =
        (getDashboardStats st y m).currentMonthProfitLoss := by
  constructor
  · simp only [getDashboardStats, specMonthlySum]
    rw [monthly_filter_eq st y m hvalid TxType.income,
      monthly_filter_eq st y m hvalid TxType.expense]
  · intro tx2 htx2
    simp only [getDashboardStats]
    rw [List.filter_cons]
    have hfalse : (dateLe ⟨y, m, 1⟩ tx2.date &&
        dateLe tx2.date ⟨y, m, daysInMonth y m⟩ &&
        (tx2.status == TxStatus.approved)) = false := by
      simp [htx2]
    rw [hfalse]
    simp

/-- Witness for C6 at a concrete January 2026 store holding one approved
income (25000), one approved expense (45000) and one draft expense. -/
theorem dashboard_profit_loss_correct_witness :
    (getDashboardStats
      ⟨[⟨1, "A", .current, 0, 0, true⟩], [],
       [⟨1, ⟨2026, 1, 5⟩, 25000, .income, none, 1, none, .approved, "1", none⟩,
        ⟨2, ⟨2026, 1, 9⟩, 45000, .expense, none, 1, none, .approved, "1", none⟩,
        ⟨3, ⟨2026, 1, 12⟩, 500, .expense, none, 1, none, .draft, "1", none⟩]⟩
      2026 1).currentMonthProfitLoss =
      specMonthlySum
        ⟨[⟨1, "A", .current, 0, 0, true⟩], [],
         [⟨1, ⟨2026, 1, 5⟩, 25000, .income, none, 1, none, .approved, "1", none⟩,
          ⟨2, ⟨2026, 1, 9⟩, 45000, .expense, none, 1, none, .approved, "1", none⟩,
          ⟨3, ⟨2026, 1, 12⟩, 500, .expense, none, 1, none, .draft, "1", none⟩]⟩
        2026 1 .income -
      specMonthlySum
        ⟨[⟨1, "A", .current, 0, 0, true⟩], [],
         [⟨1, ⟨2026, 1, 5⟩, 25000, .income, none, 1, none, .approved, "1", none⟩,
          ⟨2, ⟨2026, 1, 9⟩, 45000, .expense, none, 1, none, .approved, "1", none⟩,
          ⟨3, ⟨2026, 1, 12⟩, 500, .expense, none, 1, none, .draft, "1", none⟩]⟩
        2026 1 .expense :=
  (dashboard_profit_loss_correct _ 2026 1 (by decide)).1

lemma applyBalanceUpdate_length (accs : List Account) (aid : Nat)
    (f : Account → Account) :
    (applyBalanceUpdate accs aid f).length = accs.length := by
  simp [applyBalanceUpdate]

lemma applyBalanceUpdate_get (accs : List Account) (aid : Nat)
    (f : Account → Account) (i : Nat) (h : i < accs.length)
    (h2 : i < (applyBalanceUpdate accs aid f).length) :
    (applyBalanceUpdate accs aid f).get ⟨i, h2⟩ =
      if (accs.get ⟨i, h⟩).id = aid then f (accs.get ⟨i, h⟩)
      else accs.get ⟨i, h⟩ := by
  simp [applyBalanceUpdate]

lemma sum_applyBalanceUpdate (accs : List Account) (aid : Nat) (δ : Int)
    (f : Account → Account)
    (hf : ∀ a, (f a).currentBalance = a.currentBalance + δ) :
    ((applyBalanceUpdate accs aid f).map (fun a => a.currentBalance)).sum =
      (accs.map (fun a => a.currentBalance)).sum +
        δ * (accs.countP (fun a => a.id == aid) : Int) := by
  induction accs with
  | nil => simp [applyBalanceUpdate]
  | cons a l ih =>
    simp only [applyBalanceUpdate] at ih ⊢
    simp only [List.map_cons, List.sum_cons, List.countP_cons]
    by_cases hid : a.id = aid
    · rw [if_pos hid, hf a, ih, if_pos (by simp [hid] : (a.id == aid) = true)]
      push_cast
      ring
    · rw [if_neg hid, ih,
        if_neg (by simp [hid] : ¬ ((a.id == aid) = true))]
      push_cast
      ring

lemma countP_applyBalanceUpdate (accs : List Account) (aid : Nat)
    (f : Account → Account) (x : Nat) (hf : ∀ a, (f a).id = a.id) :
    (applyBalanceUpdate accs aid f).countP (fun a => a.id == x) =
      accs.countP (fun a => a.id == x) := by
  unfold applyBalanceUpdate
  rw [List.countP_map]
  apply List.countP_congr
  intro a _
  by_cases hid : a.id = aid <;> simp [hid, hf]

lemma countP_id_eq_one (accs : List Account) (x : Nat)
    (hnd : (accs.map (fun a => a.id)).Nodup)
    (hex : ∃ a ∈ accs, a.id = x) :
    accs.countP (fun a => a.id == x) = 1 := by
  induction accs with
  | nil => simp at hex
  | cons a l ih =>
    simp only [List.map_cons, List.nodup_cons] at hnd
    obtain ⟨hna, hnd2⟩ := hnd
    rw [List.countP_cons]
    by_cases hid : a.id = x
    · have hzero : l.countP (fun b => b.id == x) = 0 := by
        rw [List.countP_eq_zero]
        intro b hb
        simp only [beq_iff_eq]
        intro hbx
        exact hna (hid ▸ hbx ▸ List.mem_map_of_mem (fun c => c.id) hb)
      simp [hid, hzero]
    · rcases hex with ⟨b, hb, hbx⟩
      rcases List.mem_cons.mp hb with rfl | hbl
      · exact absurd hbx hid
      · simp [hid, ih hnd2 ⟨b, hbl, hbx⟩]

/-- The claim's reading of balance maintenance, as a predicate on the
account list `res` produced from `accs` by a transaction `tx` that
transitions into `approved` with base-currency amount `A`:
`income` adds `A` to the source account's current balance, `expense`
subtracts it, `transfer` moves it from source to destination (conserving
the two-account, indeed the whole-store, sum), `opening_balance` adds it
to both the source's opening and current balance, and no other account
field changes. -/
def BalanceEffectSpec (tx : Transaction) (accs res : List Account) : Prop :=
  res.length = accs.length ∧
  (∀ (i : Nat) (a b : Account), accs.get? i = some a → res.get? i = some b →
    b.id = a.id ∧
    b.name = a.name ∧
    b.type = a.type ∧
    b.isActive = a.isActive ∧
    (tx.type = .income →
      b.openingBalance = a.openingBalance ∧
      b.currentBalance = a.currentBalance +
        (if a.id = tx.accountId then tx.amountInInr else 0)) ∧
    (tx.type = .expense →
      b.openingBalance = a.openingBalance ∧
      b.currentBalance = a.currentBalance -
        (if a.id = tx.accountId then tx.amountInInr else 0)) ∧
    (∀ dest, tx.type = .transfer → tx.toAccountId = some dest →
      b.openingBalance = a.openingBalance ∧
      b.currentBalance = a.currentBalance -
        (if a.id = tx.accountId then tx.amountInInr else 0) +
        (if a.id = dest then tx.amountInInr else 0)) ∧
    (tx.type = .opening_balance →
      b.openingBalance = a.openingBalance +
        (if a.id = tx.accountId then tx.amountInInr else 0) ∧
      b.currentBalance = a.currentBalance +
        (if a.id = tx.accountId then tx.amountInInr else 0))) ∧
  (∀ dest, tx.type = .transfer → tx.toAccountId = some dest →
    (accs.map (fun a => a.id)).Nodup →
    (∃ a ∈ accs, a.id = tx.accountId) → (∃ a ∈ accs, a.id = dest) →
    (res.map (fun a => a.currentBalance)).sum =
      (accs.map (fun a => a.currentBalance)).sum)

/-- C1: `updateAccountBalances` — the balance update run when a
transaction transitions into `approved` — satisfies the claim's
per-type effect description, touches no other account field, and
conserves the total balance across a transfer. -/
theorem updateAccountBalances_approved_effect (tx : Transaction)
    (accs : List Account) :
    BalanceEffectSpec tx accs (updateAccountBalances tx accs) := by
  refine ⟨?_, ?_, ?_⟩
  · cases hty : tx.type with
    | income => simp [updateAccountBalances, hty, applyBalanceUpdate_length]
    | expense => simp [updateAccountBalances, hty, applyBalanceUpdate_length]
    | opening_balance =>
      simp [updateAccountBalances, hty, applyBalanceUpdate_length]
    | transfer =>
      cases hdest : tx.toAccountId <;>
        simp [updateAccountBalances, hty, hdest, applyBalanceUpdate_length]
  · intro i a b ha hb
    cases hty : tx.type with
    | income =>
      simp only [updateAccountBalances, hty, applyBalanceUpdate,
        List.get?_map, ha, Option.map_some', Option.some.injEq] at hb
      subst hb
      by_cases hid : a.id = tx.accountId <;> simp [hid, hty]
    | expense =>
      simp only [updateAccountBalances, hty, applyBalanceUpdate,
        List.get?_map, ha, Option.map_some', Option.some.injEq] at hb
      subst hb
      by_cases hid : a.id = tx.accountId <;> simp [hid, hty]
    | opening_balance =>
      simp only [updateAccountBalances, hty, applyBalanceUpdate,
        List.get?_map, ha, Option.map_some', Option.some.injEq] at hb
      subst hb
      by_cases hid : a.id = tx.accountId <;> simp [hid, hty]
    | transfer =>
      cases hdest : tx.toAccountId with
      | none =>
        simp only [updateAccountBalances, hty, hdest, ha,
          Option.some.injEq] at hb
        subst hb
        simp [hty, hdest]
      | some dest =>
        simp only [updateAccountBalances, hty, hdest, applyBalanceUpdate,
          List.get?_map, ha, Option.map_some', Option.some.injEq] at hb
        subst hb
        by_cases hsrc : a.id = tx.accountId
        · by_cases hdst : a.id = dest
          · have hsd : tx.accountId = dest := hsrc.symm.trans hdst
            simp [hsrc, hdst, hsd, hty, hdest]
          · have hsd : tx.accountId ≠ dest := fun h => hdst (hsrc.trans h)
            simp [hsrc, hdst, hsd, hty, hdest]
        · by_cases hdst : a.id = dest
          · have hds : dest ≠ tx.accountId := fun h => hsrc (hdst.trans h)
            simp [hsrc, hdst, hds, hty, hdest]
          · simp [hsrc, hdst, hty, hdest]
  · intro dest hty hdest hnd hsrc hdst
    simp only [updateAccountBalances, hty, hdest]
    rw [sum_applyBalanceUpdate _ dest tx.amountInInr _ (fun a => rfl),
      sum_applyBalanceUpdate accs tx.accountId (-tx.amountInInr) _
        (fun a => by simp; ring),
      countP_applyBalanceUpdate accs tx.accountId
        (fun a => { a with currentBalance := a.currentBalance - tx.amountInInr })
        dest (fun a => rfl),
      countP_id_eq_one accs tx.accountId hnd hsrc,
      countP_id_eq_one accs dest hnd hdst]
    push_cast
    ring

/-- Witness for C1: the transfer scenario of the spec (accounts with
balances 500 and 0, transfer of 300) conserves the total balance. -/
theorem updateAccountBalances_approved_effect_witness :
    ((updateAccountBalances
        ⟨2, ⟨2026, 1, 16⟩, 300, .transfer, none, 1, some 2, .approved, "1", none⟩
        [⟨1, "A", .current, 500, 500, true⟩, ⟨2, "B", .cash, 0, 0, true⟩]).map
      (fun a => a.currentBalance)).sum =
      (([⟨1, "A", .current, 500, 500, true⟩,
         ⟨2, "B", .cash, 0, 0, true⟩] : List Account).map
        (fun a => a.currentBalance)).sum :=
  (updateAccountBalances_approved_effect
      ⟨2, ⟨2026, 1, 16⟩, 300, .transfer, none, 1, some 2, .approved, "1", none⟩
      [⟨1, "A", .current, 500, 500, true⟩, ⟨2, "B", .cash, 0, 0, true⟩]).2.2
    2 rfl rfl (by decide)
    ⟨⟨1, "A", .current, 500, 500, true⟩, by decide, rfl⟩
    ⟨⟨2, "B", .cash, 0, 0, true⟩, by decide, rfl⟩

end FinanceAcc
